import Mathlib

set_option maxRecDepth 4000

/-!
Verification of the FutureSignals market-news pipeline against its
natural-language specification.

The Go source is shallowly embedded: `float64` fields become `ℚ`,
`time.Time` becomes a `ℕ` tick where `0` is Go's zero time, Go maps keyed
by strings become association lists, and each fallible operation returns
`Except`/`Option`.  Every definition mirrors the corresponding Go function
(named in its doc comment); nondeterminism of Go map iteration and of
goroutine completion order is made explicit as an extra parameter.
-/

/-- Character-level lower-casing used by the slug and category code
(models `strings.ToLower`; faithful on the ASCII questions at issue). -/
def toLowerString (s : String) : String := String.mk (s.toList.map Char.toLower)

/-- Go `strings.HasPrefix` on rune lists (helper for substring search). -/
def substrAt : List Char → List Char → Bool
  | _, [] => true
  | [], _ :: _ => false
  | a :: as, b :: bs => a == b && substrAt as bs

/-- Go `strings.Contains hay needle` on rune lists. -/
def hasSubstr : List Char → List Char → Bool
  | [], n => substrAt [] n
  | c :: t, n => substrAt (c :: t) n || hasSubstr t n

/-- Go `strings.Contains` on strings. -/
def containsStr (hay needle : String) : Bool := hasSubstr hay.toList needle.toList

/-- One step of the `strings.NewReplacer` in `Market.GenerateSlug`
(`models/market.go`): every replaced pattern is a single character, so the
replacer acts character by character. -/
def replOne (c : Char) : List Char :=
  if c = '\'' ∨ c = '"' ∨ c = '?' ∨ c = '!' ∨ c = ',' ∨ c = '.' ∨
     c = ':' ∨ c = ';' ∨ c = '(' ∨ c = ')' ∨ c = '[' ∨ c = ']' then []
  else if c = '&' then ['a', 'n', 'd']
  else if c = '%' then ['p', 'e', 'r', 'c', 'e', 'n', 't']
  else if c = '$' then ['u', 's', 'd']
  else if c = '@' then ['a', 't']
  else [c]

/-- The full replacer pass of `Market.GenerateSlug`. -/
def replacerChars : List Char → List Char
  | [] => []
  | c :: r => replOne c ++ replacerChars r

/-- Go `strings.TrimRight(s, "-")` on rune lists. -/
def trimRightDash (l : List Char) : List Char :=
  (l.reverse.dropWhile (fun c => c = '-')).reverse

/-- `Market.GenerateSlug` (`models/market.go`): lower-case, spaces to
dashes, strip/replace punctuation, cap at 80, trim trailing dashes.
The 80-cap is byte-based in Go; on the ASCII slugs at issue the rune-based
cap used here coincides. -/
def generateSlug (question : String) : String :=
  let slug := (toLowerString question).toList
  let slug := slug.map (fun c => if c = ' ' then '-' else c)
  let slug := replacerChars slug
  let slug := if slug.length > 80 then slug.take 80 else slug
  String.mk (trimRightDash slug)

/-- The character set the spec claims the slug sanitizer removes. -/
def forbiddenSlugChar (c : Char) : Bool :=
  c == '%' || c == '$' || c == '@' || c == '#' || c == '+' || c == '[' || c == ']'

/-- The subset of `forbiddenSlugChar` the code's replacer actually handles. -/
def removedSlugChar (c : Char) : Bool :=
  c == '%' || c == '$' || c == '@' || c == '[' || c == ']'

/-- True when the list contains two consecutive dashes. -/
def hasConsecutiveDashes : List Char → Bool
  | c :: d :: r => (c == '-' && d == '-') || hasConsecutiveDashes (d :: r)
  | _ => false

/-- `CategoryKeywords` (`models/category.go`): keyword lists per static
category; any name outside the map has the empty list. -/
def categoryKeywords (cat : String) : List String :=
  match cat with
  | "politics" =>
    ["president", "congress", "senate", "house", "vote", "trump", "biden",
     "government", "governor", "mayor", "legislation", "bill", "law",
     "republican", "democrat", "gop", "dnc", "rnc", "white house"]
  | "elections" =>
    ["election", "ballot", "primary", "nominee", "electoral", "swing state",
     "poll", "voter", "voting", "candidate", "midterm", "runoff"]
  | "crypto" =>
    ["bitcoin", "btc", "ethereum", "eth", "crypto", "token", "blockchain",
     "defi", "nft", "altcoin", "stablecoin", "usdc", "usdt", "solana",
     "cardano", "dogecoin", "shiba", "binance", "coinbase", "sec crypto"]
  | "finance" =>
    ["stock", "nasdaq", "dow", "s&p", "market", "trading", "investor",
     "wall street", "hedge fund", "ipo", "merger", "acquisition"]
  | "economy" =>
    ["fed", "federal reserve", "interest rate", "inflation", "gdp",
     "recession", "unemployment", "jobs report", "cpi", "treasury",
     "fiscal", "monetary", "debt ceiling", "deficit"]
  | "earnings" =>
    ["earnings", "revenue", "profit", "quarterly", "eps", "guidance",
     "beat", "miss", "forecast", "outlook"]
  | "tech" =>
    ["ai", "artificial intelligence", "openai", "chatgpt", "google", "apple",
     "microsoft", "meta", "amazon", "tesla", "nvidia", "semiconductor",
     "chip", "software", "startup", "silicon valley", "spacex", "elon"]
  | "sports" =>
    ["nfl", "nba", "mlb", "nhl", "soccer", "football", "basketball",
     "baseball", "hockey", "super bowl", "world series", "championship",
     "playoffs", "finals", "mvp", "draft", "trade", "coach"]
  | "geopolitics" =>
    ["war", "conflict", "military", "nato", "russia", "ukraine", "china",
     "taiwan", "iran", "israel", "palestine", "ceasefire", "sanctions",
     "treaty", "summit", "diplomacy", "embassy"]
  | "world" =>
    ["international", "global", "united nations", "un", "world",
     "foreign", "abroad", "overseas"]
  | "culture" =>
    ["movie", "film", "oscars", "grammy", "emmys", "celebrity", "music",
     "album", "tour", "concert", "tv show", "streaming", "netflix",
     "disney", "marvel", "box office", "viral", "tiktok", "influencer"]
  | _ => []

/-- The keys of `CategoryKeywords` in source-declaration order.  The Go
value is a map, so iteration order is NOT this list — see
`detectCategory`'s order parameter. -/
def categoryNames : List String :=
  ["politics", "elections", "crypto", "finance", "economy", "earnings",
   "tech", "sports", "geopolitics", "world", "culture"]

/-- Whether a category's keyword list matches a (lower-cased) question,
i.e. the inner loop of `Market.DetectCategory`. -/
def categoryMatches (cat : String) (questionLower : String) : Bool :=
  (categoryKeywords cat).any (fun kw => containsStr questionLower kw)

/-- `Market.DetectCategory` (`models/market.go`): first category whose
keyword list matches the lower-cased question, else "other".  The Go code
ranges over the `CategoryKeywords` map, whose iteration order is
unspecified and randomized; `order` makes that choice explicit and ranges
over permutations of `categoryNames`. -/
def detectCategory (order : List String) (question : String) : String :=
  let questionLower := toLowerString question
  match order.find? (fun cat => categoryMatches cat questionLower) with
  | some cat => cat
  | none => "other"

/-- The Go helper `abs` (`models/market.go` and `sync/syncer.go`). -/
def absF (x : ℚ) : ℚ := if x < 0 then -x else x

/-- Volume component of `CalculateTrendingScore` (0-40 points). -/
def volumeScoreOf (volume24h : ℚ) : ℚ :=
  if volume24h ≥ 1000000 then 40
  else if volume24h ≥ 500000 then 30
  else if volume24h ≥ 100000 then 20
  else if volume24h ≥ 50000 then 10
  else 0

/-- Movement component of `CalculateTrendingScore` (0-30 points). -/
def movementScoreOf (change24h : ℚ) : ℚ :=
  let absChange := absF change24h
  if absChange ≥ 0.15 then 30
  else if absChange ≥ 0.10 then 25
  else if absChange ≥ 0.05 then 15
  else if absChange ≥ 0.02 then 10
  else 0

/-- Velocity component of `CalculateTrendingScore` (0-20 points). -/
def velocityScoreOf (volume1h volume24h : ℚ) : ℚ :=
  if volume24h > 0 ∧ volume1h > 0 then
    let hourlyRatio := volume1h / (volume24h / 24)
    if hourlyRatio ≥ 5 then 20
    else if hourlyRatio ≥ 3 then 15
    else if hourlyRatio ≥ 2 then 10
    else 0
  else 0

/-- Interest component of `CalculateTrendingScore` (rewards markets near
50%; may be negative at the extremes). -/
def interestScoreOf (probability : ℚ) : ℚ := 10 - absF (probability - 0.5) * 20

/-- A category tag from the upstream event (`polymarket.Tag`, carried into
`models.PolymarketTag`). -/
structure Tag where
  label : String
  slug : String
deriving DecidableEq, Repr, Inhabited

/-- `models.Market` — the canonical market record, with the field set used
by the event-aware sync path (`sync/syncer.go`).  Times are ℕ ticks with
`0` = Go's zero `time.Time`. -/
structure Market where
  marketID : String
  conditionID : String
  slug : String
  groupItemTitle : String
  question : String
  description : String
  image : String
  icon : String
  category : String
  polymarketTags : List Tag
  probability : ℚ
  previousProb : ℚ
  lastTradePrice : ℚ
  change24h : ℚ
  change7d : ℚ
  volume1h : ℚ
  volume24h : ℚ
  volume7d : ℚ
  totalVolume : ℚ
  eventVolume : ℚ
  eventVolume24h : ℚ
  liquidity : ℚ
  eventTitle : String
  commentCount : ℕ
  seriesSlug : String
  active : Bool
  closed : Bool
  archived : Bool
  acceptingBid : Bool
  startDate : String
  endDate : String
  resolutionSource : String
  competitorCount : ℕ
  outcomes : List String
  outcomePrices : List ℚ
  updatedAt : ℕ
  firstSeenAt : ℕ
  trendingScore : ℚ
  polymarketURL : String
deriving DecidableEq, Repr, Inhabited

/-- `Market.CalculateTrendingScore` (`models/market.go`): the sum of the
four bounded components. -/
def calculateTrendingScore (m : Market) : ℚ :=
  volumeScoreOf m.volume24h + movementScoreOf m.change24h +
    velocityScoreOf m.volume1h m.volume24h + interestScoreOf m.probability

/-- `strconv.ParseFloat` as used on Polymarket price strings
(`sync/syncer.go` helper `parseFloat`, `polymarket/client.go`): a plain
decimal literal with optional sign and fraction.  Exponent/hex/inf forms
never occur in outcome-price strings and are treated as parse errors. -/
def parseFloat (s : String) : Option ℚ :=
  let l := s.toList
  let signed : ℚ × List Char :=
    match l with
    | '-' :: r => (-1, r)
    | '+' :: r => (1, r)
    | _ => (1, l)
  let sign := signed.1
  let digitsPart := signed.2
  let intPart := digitsPart.takeWhile Char.isDigit
  let rest := digitsPart.dropWhile Char.isDigit
  let natOfDigits : List Char → ℕ :=
    fun ds => ds.foldl (fun acc c => acc * 10 + (c.toNat - '0'.toNat)) 0
  match rest with
  | [] =>
    if intPart.isEmpty then none else some (sign * (natOfDigits intPart : ℚ))
  | '.' :: frac =>
    if frac.all Char.isDigit ∧ ¬(intPart.isEmpty ∧ frac.isEmpty) then
      some (sign * ((natOfDigits intPart : ℚ) +
        (natOfDigits frac : ℚ) / (10 : ℚ) ^ frac.length))
    else none
  | _ => none

/-- `polymarket.Market` — a market as decoded from the venue API
(`polymarket/client.go`), including the computed `YesPrice`/`NoPrice`
fields, which are 0 until `GetMarkets`' post-decode loop fills them. -/
structure PMMarket where
  id : String
  conditionID : String
  groupItemTitle : String
  question : String
  description : String
  image : String
  icon : String
  outcomes : List String
  outcomePrices : List String
  yesPrice : ℚ
  noPrice : ℚ
  lastTradePrice : ℚ
  oneDayPriceChange : ℚ
  oneWeekPriceChange : ℚ
  volume24hr : ℚ
  volume1wk : ℚ
  volumeNum : ℚ
  liquidityNum : ℚ
  active : Bool
  closed : Bool
  acceptingOrders : Bool
  startDate : String
  endDate : String
  resolutionSource : String
deriving DecidableEq, Repr, Inhabited

/-- `polymarket.Event` — a venue event grouping markets
(`polymarket/client.go`). -/
structure PMEvent where
  id : String
  title : String
  slug : String
  description : String
  image : String
  icon : String
  volume : ℚ
  volume24hr : ℚ
  tags : List Tag
  commentCount : ℕ
  competitorCount : ℕ
  seriesSlug : String
deriving DecidableEq, Repr, Inhabited

/-- The post-decode price loop of `polymarket.Client.GetMarkets`
(`polymarket/client.go` lines 245-251): only when the outcome-price list
has at least two entries are `YesPrice`/`NoPrice` parsed from its first
two entries; a failed parse leaves the Go zero value 0. -/
def clientParsePrices (pm : PMMarket) : PMMarket :=
  if pm.outcomePrices.length ≥ 2 then
    { pm with
      yesPrice := (parseFloat pm.outcomePrices.headI).getD 0,
      noPrice := (parseFloat pm.outcomePrices.tail.headI).getD 0 }
  else pm

/-- `Syncer.convertMarketWithEvent` (`sync/syncer.go`): build a
`models.Market` from a venue market plus its parent event.  `order` is the
map-iteration order consumed by `detectCategory`; `now` is the wall clock
read for `UpdatedAt`. -/
def convertMarketWithEvent (order : List String) (now : ℕ)
    (pm : PMMarket) (event : PMEvent) : Market :=
  let outcomePrices := pm.outcomePrices.filterMap parseFloat
  let image := if pm.image = "" then event.image else pm.image
  let icon := if pm.icon = "" then event.icon else pm.icon
  let m : Market :=
    { marketID := pm.id
      conditionID := pm.conditionID
      slug := ""
      groupItemTitle := pm.groupItemTitle
      question := pm.question
      description := pm.description
      image := image
      icon := icon
      category := ""
      polymarketTags := event.tags
      probability := pm.yesPrice
      previousProb := 0
      lastTradePrice := pm.lastTradePrice
      change24h := pm.oneDayPriceChange
      change7d := pm.oneWeekPriceChange
      volume1h := 0
      volume24h := pm.volume24hr
      volume7d := pm.volume1wk
      totalVolume := pm.volumeNum
      eventVolume := event.volume
      eventVolume24h := event.volume24hr
      liquidity := pm.liquidityNum
      eventTitle := event.title
      commentCount := event.commentCount
      seriesSlug := event.seriesSlug
      active := pm.active
      closed := pm.closed
      archived := false
      acceptingBid := pm.acceptingOrders
      startDate := pm.startDate
      endDate := pm.endDate
      resolutionSource := pm.resolutionSource
      competitorCount := event.competitorCount
      outcomes := pm.outcomes
      outcomePrices := outcomePrices
      updatedAt := now
      firstSeenAt := 0
      trendingScore := 0
      polymarketURL := "https://polymarket.com/event/" ++ event.slug }
  let m := { m with category := detectCategory order pm.question }
  let m := { m with slug := generateSlug pm.question }
  { m with trendingScore := calculateTrendingScore m }

/-- Association-list lookup modelling a Go map read (`cache[id]` /
a `market_id`-keyed Mongo query). -/
def lookupA {α : Type} : List (String × α) → String → Option α
  | [], _ => none
  | (k', v) :: t, k => if k = k' then some v else lookupA t k

/-- Association-list insert-or-replace modelling a Go map write /
a `market_id`-keyed upsert. -/
def insertA {α : Type} (l : List (String × α)) (k : String) (v : α) :
    List (String × α) :=
  (k, v) :: l.filter (fun p => p.1 != k)

/-- `sync.EventType` (`sync/syncer.go`). -/
inductive EventType
  | newMarket
  | priceChange
  | breakingMove
  | volumeSpike
  | thresholdCross
  | trendingUpdate
deriving DecidableEq, Repr, Inhabited

/-- A value of the `map[string]interface{}` metadata carried by a sync
event: the Syncer only ever stores `float64`s and `string`s. -/
inductive MetaVal
  | f (x : ℚ)
  | s (v : String)
deriving DecidableEq, Repr, Inhabited

/-- `sync.Event` (`sync/syncer.go`).  The `Previous` snapshot pointer is
always nil on the event-aware path and is omitted. -/
structure SyncEvent where
  type : EventType
  market : Market
  timestamp : ℕ
  metadata : List (String × MetaVal)
deriving DecidableEq, Repr, Inhabited

/-- `sync.SyncerConfig` (`sync/syncer.go`); durations in seconds. -/
structure SyncerConfig where
  syncInterval : ℕ
  snapshotInterval : ℕ
  breakingThreshold : ℚ
  volumeMultiplier : ℚ
  trendingThreshold : ℚ
  snapshotRetention : ℕ
  minVolume24h : ℚ
deriving DecidableEq, Repr, Inhabited

/-- `sync.DefaultSyncerConfig` (`sync/syncer.go`). -/
def defaultSyncerConfig : SyncerConfig :=
  { syncInterval := 30
    snapshotInterval := 300
    breakingThreshold := 0.05
    volumeMultiplier := 3.0
    trendingThreshold := 50.0
    snapshotRetention := 604800
    minVolume24h := 10000 }

/-- The mutable state one sync pass touches: the Syncer's in-memory market
cache and the Store's `markets` collection, both keyed by `market_id`. -/
structure SyncState where
  marketCache : List (String × Market)
  store : List (String × Market)
deriving DecidableEq, Repr, Inhabited

/-- The empty state of a freshly started process over an empty database. -/
def initState : SyncState := { marketCache := [], store := [] }

/-- `Store.UpsertMarket` (`storage/store.go`): stamp `updated_at := now`,
set `first_seen_at := now` only when it is zero ON THE INCOMING RECORD,
then replace the whole document keyed by `market_id`.  Returns the written
record (the Go code mutates the caller's pointer) and the new collection. -/
def upsertMarket (now : ℕ) (store : List (String × Market)) (m : Market) :
    Market × List (String × Market) :=
  let m' := { m with
    updatedAt := now,
    firstSeenAt := if m.firstSeenAt = 0 then now else m.firstSeenAt }
  (m', insertA store m.marketID m')

/-- `crossedThreshold` (`sync/syncer.go`). -/
def crossedThreshold (prev curr threshold : ℚ) : Bool :=
  decide ((prev < threshold ∧ threshold ≤ curr) ∨ (threshold ≤ prev ∧ curr < threshold))

/-- `directionString` (`sync/syncer.go`). -/
def directionString (prev curr : ℚ) : String :=
  if prev < curr then "up" else "down"

/-- The thresholds checked for crossings (`sync/syncer.go`). -/
def thresholds : List ℚ := [0.50, 0.75, 0.90]

/-- The cache-hit update of `processMarketWithEvent`: carry
`first_seen_at` forward, record the cached probability as previous, and
overwrite `change_24h` with the probability delta. -/
def hitMarket (existing m : Market) : Market :=
  { m with
    firstSeenAt := existing.firstSeenAt,
    previousProb := existing.probability,
    change24h := m.probability - existing.probability }

/-- The breaking-move emission of `processMarketWithEvent`. -/
def breakingEvents (cfg : SyncerConfig) (now : ℕ) (existing m : Market) :
    List SyncEvent :=
  if absF m.change24h ≥ cfg.breakingThreshold then
    [{ type := .breakingMove, market := m, timestamp := now,
       metadata := [("change", .f m.change24h),
                    ("previous", .f existing.probability),
                    ("current", .f m.probability)] }]
  else []

/-- The volume-spike emission of `processMarketWithEvent`. -/
def volumeSpikeEvents (cfg : SyncerConfig) (now : ℕ) (existing m : Market) :
    List SyncEvent :=
  if existing.volume24h > 0 ∧ m.volume24h / existing.volume24h ≥ cfg.volumeMultiplier then
    [{ type := .volumeSpike, market := m, timestamp := now,
       metadata := [("previous_volume", .f existing.volume24h),
                    ("current_volume", .f m.volume24h),
                    ("multiplier", .f (m.volume24h / existing.volume24h))] }]
  else []

/-- The threshold-crossing emissions of `processMarketWithEvent`. -/
def thresholdCrossEvents (now : ℕ) (existing m : Market) : List SyncEvent :=
  thresholds.filterMap (fun t =>
    if crossedThreshold existing.probability m.probability t then
      some { type := .thresholdCross, market := m, timestamp := now,
             metadata := [("threshold", .f t),
                          ("direction", .s (directionString existing.probability m.probability))] }
    else none)

/-- `Syncer.processMarketWithEvent` (`sync/syncer.go`): skip low-volume
markets, convert, diff against the cache, emit events in code order
(breaking, then spike, then crossings), update the cache and upsert.  The
returned list is what `emitEvent` is called with, in order. -/
def processMarketWithEvent (order : List String) (cfg : SyncerConfig)
    (now : ℕ) (pm : PMMarket) (event : PMEvent) (st : SyncState) :
    List SyncEvent × SyncState :=
  if pm.volume24hr < cfg.minVolume24h then ([], st)
  else
    let market0 := convertMarketWithEvent order now pm event
    let stage :=
      match lookupA st.marketCache market0.marketID with
      | none =>
        let market := { market0 with firstSeenAt := now }
        (([{ type := .newMarket, market := market, timestamp := now,
             metadata := [] }] : List SyncEvent), market)
      | some existing =>
        let market := hitMarket existing market0
        (breakingEvents cfg now existing market ++
           volumeSpikeEvents cfg now existing market ++
           thresholdCrossEvents now existing market, market)
    let events := stage.1
    let market := stage.2
    let written := upsertMarket now st.store market
    (events,
     { marketCache := insertA st.marketCache market.marketID written.1,
       store := written.2 })

/-- One observed market update: the inputs of a single
`processMarketWithEvent` call (`order` is that call's map-iteration
order, `now` its wall clock). -/
structure SyncStep where
  order : List String
  now : ℕ
  pm : PMMarket
  event : PMEvent
deriving Repr, Inhabited

/-- A sequence of market updates across any number of sync passes. -/
def runSteps (cfg : SyncerConfig) (steps : List SyncStep) (st : SyncState) :
    SyncState :=
  steps.foldl
    (fun st s => (processMarketWithEvent s.order cfg s.now s.pm s.event st).2)
    st

/-- The unchecked type assertions of `Scheduler.processEvent`
(`scheduler/scheduler.go`): `event.Metadata["threshold"].(float64)` on a
threshold-cross and `event.Metadata["multiplier"].(float64)` on a volume
spike.  Returns false exactly when the Go code would panic. -/
def processEventAsserts (e : SyncEvent) : Bool :=
  match e.type with
  | .thresholdCross =>
    match lookupA e.metadata "threshold" with
    | some (.f _) => true
    | _ => false
  | .volumeSpike =>
    match lookupA e.metadata "multiplier" with
    | some (.f _) => true
    | _ => false
  | _ => true

/-- `qwen.Narrative` (`qwen/client.go`): the JSON schema the LLM must
return for a breaking article. -/
structure Narrative where
  headline : String
  subheadline : String
  whatChanged : String
  whyItMatters : String
  marketContext : String
  whatToWatch : String
  tags : List String
  sentiment : String
  significance : String
deriving DecidableEq, Repr, Inhabited

/-- `models.ArticleType`. -/
inductive ArticleType
  | breaking
  | briefing
  | trending
  | newMarket
  | deepDive
  | digest
  | explainer
deriving DecidableEq, Repr, Inhabited

/-- `models.ArticleBody`: the four named sections. -/
structure ArticleBody where
  whatHappened : String
  whyItMatters : String
  context : List String
  whatToWatch : String
deriving DecidableEq, Repr, Inhabited

/-- `models.MarketRef`: a denormalized market reference embedded in an
article. -/
structure MarketRef where
  marketID : String
  question : String
  slug : String
  probability : ℚ
  previousProb : ℚ
  change24h : ℚ
  volume24h : ℚ
  totalVolume : ℚ
deriving DecidableEq, Repr, Inhabited

/-- `models.Article`, restricted to the fields `GenerateBreaking` sets
(timestamps and view counters are irrelevant to the claims and omitted). -/
structure Article where
  slug : String
  type : ArticleType
  category : String
  headline : String
  subheadline : String
  summary : String
  body : ArticleBody
  markets : List MarketRef
  primaryMarket : Option MarketRef
  tags : List String
  significance : String
  sentiment : String
  metaTitle : String
  metaDescription : String
  published : Bool
  enrichmentSources : List String
deriving DecidableEq, Repr, Inhabited

/-- `qwen.Client.ChatJSON` (`qwen/client.go`): run the chat call, then
decode the response content as JSON.  The transport outcome and the JSON
decoder (`json.Unmarshal`) are passed in; a `none` decode is Go's
unmarshal error, turned into the `failed to parse JSON response` error. -/
def chatJSON {α : Type} (chat : Except String String)
    (decode : String → Option α) : Except String α :=
  match chat with
  | .error e => .error e
  | .ok content =>
    match decode content with
    | none => .error "failed to parse JSON response"
    | some v => .ok v

/-- `Store.SaveArticle` (`storage/store.go`): a plain insert; the unique
index on `slug` makes a duplicate slug a defined error. -/
def saveArticle (a : Article) (articles : List Article) :
    Except String (List Article) :=
  if articles.any (fun b => b.slug == a.slug) then .error "duplicate slug"
  else .ok (articles ++ [a])

/-- One step of the `strings.NewReplacer` in `content.Generator.generateSlug`
(`content/generator.go`) — pure removals, no `[ ] & % $ @` handling. -/
def replOneArticle (c : Char) : List Char :=
  if c = '\'' ∨ c = '"' ∨ c = '?' ∨ c = '!' ∨ c = ',' ∨ c = '.' ∨
     c = ':' ∨ c = ';' ∨ c = '(' ∨ c = ')' then []
  else [c]

/-- The replacer pass of `content.Generator.generateSlug`. -/
def replacerArticleChars : List Char → List Char
  | [] => []
  | c :: r => replOneArticle c ++ replacerArticleChars r

/-- `content.Generator.generateSlug` (`content/generator.go`): sanitize
the headline and suffix the wall-clock stamp (Go format `20060102-1504`),
passed in here as `nowStr`. -/
def generateArticleSlug (headline : String) (nowStr : String) : String :=
  let slug := (toLowerString headline).toList
  let slug := slug.map (fun c => if c = ' ' then '-' else c)
  let slug := replacerArticleChars slug
  let slug := if slug.length > 80 then slug.take 80 else slug
  String.mk (trimRightDash slug) ++ "-" ++ nowStr

/-- `enrichment.NewsArticle`. -/
structure NewsArticle where
  title : String
  url : String
  content : String
  published : String
  source : String
  relevance : ℚ
deriving DecidableEq, Repr, Inhabited

/-- `enrichment.SemanticResult`. -/
structure SemanticResult where
  title : String
  url : String
  text : String
  highlights : List String
  summary : String
  published : String
  score : ℚ
deriving DecidableEq, Repr, Inhabited

/-- `enrichment.DeepContent`. -/
structure DeepContent where
  title : String
  url : String
  markdown : String
  description : String
deriving DecidableEq, Repr, Inhabited

/-- `enrichment.EnrichedContext` (`enrichment/enricher.go`). -/
structure EnrichedContext where
  newsArticles : List NewsArticle
  semanticResults : List SemanticResult
  deepContent : List DeepContent
  summary : String
  enrichedAt : ℕ
  sources : List String
deriving DecidableEq, Repr, Inhabited

/-- `enrichment.EnrichmentConfig`. -/
structure EnrichmentConfig where
  tavilyAPIKey : String
  exaAPIKey : String
  firecrawlAPIKey : String
  maxNewsResults : ℕ
  maxDeepScrapes : ℕ
  enableTavily : Bool
  enableExa : Bool
  enableFirecrawl : Bool
deriving DecidableEq, Repr, Inhabited

/-- `enrichment.Enricher`: which provider clients are non-nil, plus the
result limits. -/
structure Enricher where
  tavily : Bool
  exa : Bool
  firecrawl : Bool
  maxNewsResults : ℕ
  maxDeepScrapes : ℕ
deriving DecidableEq, Repr, Inhabited

/-- `enrichment.NewEnricher`: a provider client is created only when both
its enable flag and its API key are present; zero limits fall back to
defaults. -/
def newEnricher (cfg : EnrichmentConfig) : Enricher :=
  { tavily := cfg.enableTavily && cfg.tavilyAPIKey != ""
    exa := cfg.enableExa && cfg.exaAPIKey != ""
    firecrawl := cfg.enableFirecrawl && cfg.firecrawlAPIKey != ""
    maxNewsResults := if cfg.maxNewsResults = 0 then 5 else cfg.maxNewsResults
    maxDeepScrapes := if cfg.maxDeepScrapes = 0 then 2 else cfg.maxDeepScrapes }

/-- `truncateString` (`enrichment/enricher.go`). -/
def truncateString (s : String) (maxLen : ℕ) : String :=
  if s.length ≤ maxLen then s else String.mk (s.toList.take maxLen) ++ "..."

/-- `Enricher.generateSummary` (`enrichment/enricher.go`): the combined
plain-text context blob for the LLM. -/
def generateSummary (enriched : EnrichedContext) (query : String) : String :=
  let sb := "=== CONTEXT FOR: " ++ query ++ " ===\n\n"
  let sb :=
    if enriched.newsArticles.isEmpty then sb
    else
      sb ++ "## Recent News:\n" ++
        String.join (enriched.newsArticles.enum.map (fun p =>
          toString (p.1 + 1) ++ ". **" ++ p.2.title ++ "** (" ++ p.2.source ++ ")\n" ++
            (if p.2.content = "" then "" else "   " ++ truncateString p.2.content 300 ++ "\n") ++
            "\n"))
  let sb :=
    if enriched.semanticResults.isEmpty then sb
    else
      sb ++ "\n## Related Analysis:\n" ++
        String.join (enriched.semanticResults.enum.map (fun p =>
          toString (p.1 + 1) ++ ". **" ++ p.2.title ++ "**\n" ++
            (if p.2.summary = "" then "" else "   Summary: " ++ p.2.summary ++ "\n") ++
            (if p.2.highlights.isEmpty then ""
             else "   Key Points:\n" ++
               String.join ((p.2.highlights.take 3).map (fun h => "   - " ++ h ++ "\n"))) ++
            "\n"))
  let sb :=
    if enriched.deepContent.isEmpty then sb
    else
      sb ++ "\n## Detailed Sources:\n" ++
        String.join (enriched.deepContent.enum.map (fun p =>
          toString (p.1 + 1) ++ ". **" ++ p.2.title ++ "**\n" ++
            (if p.2.description = "" then "" else "   " ++ p.2.description ++ "\n") ++
            (if p.2.markdown = "" then ""
             else "\n   --- Excerpt ---\n   " ++ truncateString p.2.markdown 1000 ++ "\n   ---\n\n")))
  sb

/-- `Enricher.Enrich` (`enrichment/enricher.go`).  The two search
goroutines always both finish before `wg.Wait()`; which one appends to
`Sources` first is scheduler-dependent, made explicit as
`tavilyFinishesFirst`.  Each provider call's outcome is passed in
(`.error` = that provider's HTTP call failed).  Note the function returns
`result, nil` unconditionally. -/
def enrich (e : Enricher) (now : ℕ) (query : String)
    (tavilyOutcome : Except Unit (List NewsArticle))
    (exaOutcome : Except Unit (List SemanticResult))
    (firecrawlOutcome : Except Unit (List DeepContent))
    (tavilyFinishesFirst : Bool) : Except Unit EnrichedContext :=
  let base : EnrichedContext :=
    { newsArticles := [], semanticResults := [], deepContent := []
      summary := "", enrichedAt := now, sources := [] }
  let applyTavily := fun (r : EnrichedContext) =>
    if e.tavily then
      match tavilyOutcome with
      | .ok articles => { r with newsArticles := articles, sources := r.sources ++ ["tavily"] }
      | .error _ => r
    else r
  let applyExa := fun (r : EnrichedContext) =>
    if e.exa then
      match exaOutcome with
      | .ok semantic => { r with semanticResults := semantic, sources := r.sources ++ ["exa"] }
      | .error _ => r
    else r
  let r := if tavilyFinishesFirst then applyExa (applyTavily base)
           else applyTavily (applyExa base)
  let r :=
    if e.firecrawl ∧ ¬r.newsArticles.isEmpty then
      match firecrawlOutcome with
      | .ok deep => { r with deepContent := deep, sources := r.sources ++ ["firecrawl"] }
      | .error _ => r
    else r
  .ok { r with summary := generateSummary r query }

/-- `content.Generator.GenerateBreaking` (`content/generator.go`):
enrichment failure is warned and elided; a narrative failure (including an
unparseable LLM response) aborts before any Store write; on success the
article is built and saved.  `llmConfigured` is `g.llm != nil`, `chat` the
LLM transport outcome, `decode` the JSON unmarshal, `nowStr` the slug
timestamp suffix.  Returns the call result and the articles collection
after the call. -/
def generateBreaking (llmConfigured : Bool) (event : SyncEvent)
    (enrichOutcome : Option (Except Unit EnrichedContext))
    (chat : Except String String) (decode : String → Option Narrative)
    (nowStr : String) (articles : List Article) :
    Except String Article × List Article :=
  let enrichData : String × List String :=
    match enrichOutcome with
    | some (.ok c) => (c.summary, c.sources)
    | _ => ("", [])
  let narrativeRes : Except String Narrative :=
    if llmConfigured then chatJSON chat decode
    else .error "LLM client not configured"
  match narrativeRes with
  | .error e => (.error ("failed to generate narrative: " ++ e), articles)
  | .ok narrative =>
    let article : Article :=
      { slug := generateArticleSlug narrative.headline nowStr
        type := .breaking
        category := event.market.category
        headline := narrative.headline
        subheadline := narrative.subheadline
        summary := narrative.subheadline
        body := { whatHappened := narrative.whatChanged
                  whyItMatters := narrative.whyItMatters
                  context := [narrative.marketContext]
                  whatToWatch := narrative.whatToWatch }
        markets := [{ marketID := event.market.marketID
                      question := event.market.question
                      slug := event.market.slug
                      probability := event.market.probability
                      previousProb := event.market.previousProb
                      change24h := event.market.change24h
                      volume24h := event.market.volume24h
                      totalVolume := event.market.totalVolume }]
        primaryMarket := some { marketID := event.market.marketID
                                question := event.market.question
                                slug := ""
                                probability := event.market.probability
                                previousProb := 0
                                change24h := event.market.change24h
                                volume24h := event.market.volume24h
                                totalVolume := 0 }
        tags := narrative.tags
        significance := narrative.significance
        sentiment := narrative.sentiment
        metaTitle := narrative.headline
        metaDescription := narrative.subheadline
        published := true
        enrichmentSources := enrichData.2 }
    match saveArticle article articles with
    | .error e => (.error ("failed to save article: " ++ e), articles)
    | .ok articles' => (.ok article, articles')

/-- Part of the sync invariant: every cached market has a nonzero
`first_seen_at` (the sync pass always sets it before caching). -/
def cacheNonzero (st : SyncState) : Prop :=
  ∀ id m, lookupA st.marketCache id = some m → m.firstSeenAt ≠ 0

/-- Part of the sync invariant: every stored market is also cached, with
the same `first_seen_at` (cache and store are written together). -/
def storeCovered (st : SyncState) : Prop :=
  ∀ id m, lookupA st.store id = some m →
    ∃ mc, lookupA st.marketCache id = some mc ∧ mc.firstSeenAt = m.firstSeenAt

/-- The invariant a Syncer run maintains from its empty start state. -/
def syncInv (st : SyncState) : Prop := cacheNonzero st ∧ storeCovered st

/-- A `models.Market` with every field at the Go zero value. -/
def marketBase : Market :=
  { marketID := "", conditionID := "", slug := "", groupItemTitle := ""
    question := "", description := "", image := "", icon := "", category := ""
    polymarketTags := [], probability := 0, previousProb := 0
    lastTradePrice := 0, change24h := 0, change7d := 0
    volume1h := 0, volume24h := 0, volume7d := 0, totalVolume := 0
    eventVolume := 0, eventVolume24h := 0, liquidity := 0
    eventTitle := "", commentCount := 0, seriesSlug := ""
    active := false, closed := false, archived := false, acceptingBid := false
    startDate := "", endDate := "", resolutionSource := "", competitorCount := 0
    outcomes := [], outcomePrices := [], updatedAt := 0, firstSeenAt := 0
    trendingScore := 0, polymarketURL := "" }

/-- A `polymarket.Market` with every field at the Go zero value. -/
def pmBase : PMMarket :=
  { id := "", conditionID := "", groupItemTitle := "", question := ""
    description := "", image := "", icon := "", outcomes := []
    outcomePrices := [], yesPrice := 0, noPrice := 0, lastTradePrice := 0
    oneDayPriceChange := 0, oneWeekPriceChange := 0, volume24hr := 0
    volume1wk := 0, volumeNum := 0, liquidityNum := 0, active := false
    closed := false, acceptingOrders := false, startDate := "", endDate := ""
    resolutionSource := "" }

/-- A `polymarket.Event` with every field at the Go zero value. -/
def evBase : PMEvent :=
  { id := "", title := "", slug := "", description := "", image := ""
    icon := "", volume := 0, volume24hr := 0, tags := [], commentCount := 0
    competitorCount := 0, seriesSlug := "" }

/-- Cached market for the volume-spike-plus-breaking-move scenario:
probability 0.30, 24h volume $20 000. -/
def existingC2 : Market :=
  { marketBase with
    marketID := "m1"
    probability := 3/10
    volume24h := 20000
    firstSeenAt := 2 }

/-- The same market's next observation: probability 0.40, volume $80 000 —
a 0.10 move and a 4.0x spike in one tick. -/
def pmC2 : PMMarket :=
  { pmBase with id := "m1", yesPrice := 2/5, volume24hr := 80000 }

/-- Sync state caching `existingC2`. -/
def stC2 : SyncState :=
  { marketCache := [("m1", existingC2)], store := [("m1", existingC2)] }

/-- A map iteration order Go may use for `CategoryKeywords`: the
declaration order with `elections` visited before `politics`. -/
def orderSwapped : List String :=
  ["elections", "politics", "crypto", "finance", "economy", "earnings",
   "tech", "sports", "geopolitics", "world", "culture"]

/-- A question matching both the `politics` keyword `trump` and the
`elections` keyword `election` (and no other category). -/
def questionC3 : String := "Will Trump win the election?"

/-- Upstream market whose outcome-price list has a single entry: the
`GetMarkets` price loop skips it (needs ≥ 2 entries), leaving
`YesPrice = 0`, while the converter still parses the one entry. -/
def pmC4 : PMMarket :=
  { pmBase with id := "m4", outcomePrices := ["0.7"], volume24hr := 20000 }

/-- Upstream market with a well-formed two-entry outcome-price list. -/
def pmC4w : PMMarket :=
  { pmBase with id := "m5", outcomePrices := ["0.7", "0.3"], volume24hr := 20000 }

/-- A market record with the zero `first_seen_at` of a fresh conversion. -/
def mC5 : Market := { marketBase with marketID := "m7" }

/-- First observation of market `m8` at tick 1. -/
def stepC5a : SyncStep :=
  { order := categoryNames, now := 1
    pm := { pmBase with id := "m8", volume24hr := 20000 }, event := evBase }

/-- Second observation of market `m8` at tick 2. -/
def stepC5b : SyncStep :=
  { order := categoryNames, now := 2
    pm := { pmBase with id := "m8", volume24hr := 30000, yesPrice := 1/4 }
    event := evBase }

/-- Cached market for the change-24h scenario: probability 0.50. -/
def existingC6 : Market :=
  { marketBase with
    marketID := "m3"
    probability := 1/2
    volume24h := 20000
    firstSeenAt := 2 }

/-- Next observation of `m3`: probability 0.55 while the upstream reports
`oneDayPriceChange = 0.2`. -/
def pmC6 : PMMarket :=
  { pmBase with
    id := "m3"
    yesPrice := 11/20
    oneDayPriceChange := 1/5
    volume24hr := 20000 }

/-- Sync state caching `existingC6`. -/
def stC6 : SyncState :=
  { marketCache := [("m3", existingC6)], store := [("m3", existingC6)] }

/-- A first-seen market carrying an upstream `oneDayPriceChange`. -/
def pmC6w : PMMarket :=
  { pmBase with id := "m6", oneDayPriceChange := 3/100, volume24hr := 15000 }

/-- A breaking-move event feeding `GenerateBreaking`. -/
def eventC7 : SyncEvent :=
  { type := .breakingMove
    market := { marketBase with marketID := "m9", question := "q", category := "other" }
    timestamp := 1, metadata := [] }

/-- An article already in the store before the failing generate call. -/
def articleBase : Article :=
  { slug := "existing-article", type := .briefing, category := ""
    headline := "", subheadline := "", summary := ""
    body := { whatHappened := "", whyItMatters := "", context := [], whatToWatch := "" }
    markets := [], primaryMarket := none, tags := [], significance := ""
    sentiment := "", metaTitle := "", metaDescription := "", published := true
    enrichmentSources := [] }

/-- A JSON decoder on a response that is not JSON (for example the bare
string `oops`): `json.Unmarshal` fails on every such content. -/
def decodeNone : String → Option Narrative := fun _ => none

/-- An enricher with only the news-search (Tavily) client configured. -/
def enricherC8 : Enricher :=
  { tavily := true, exa := false, firecrawl := false
    maxNewsResults := 5, maxDeepScrapes := 2 }

/-- One news-search result. -/
def newsC8 : NewsArticle :=
  { title := "t", url := "u", content := "c", published := "", source := "s"
    relevance := 1 }

/-- A market for the trending-score monotonicity witness. -/
def marketC9 : Market :=
  { marketBase with volume24h := 60000, probability := 1/2 }

/-- Cached market for the threshold-cross scenario: probability 0.48. -/
def existingC10 : Market :=
  { marketBase with
    marketID := "m2"
    probability := 12/25
    volume24h := 20000
    firstSeenAt := 2 }

/-- Next observation of `m2`: probability 0.52, crossing the 0.50 line. -/
def pmC10 : PMMarket :=
  { pmBase with id := "m2", yesPrice := 13/25, volume24hr := 20000 }

/-- Sync state caching `existingC10`. -/
def stC10 : SyncState :=
  { marketCache := [("m2", existingC10)], store := [("m2", existingC10)] }

theorem lookupA_insertA_self {α : Type} (l : List (String × α)) (k : String)
    (v : α) : lookupA (insertA l k v) k = some v := by
  simp [insertA, lookupA]

theorem lookupA_filter_ne {α : Type} (k k' : String) (h : k' ≠ k) :
    ∀ l : List (String × α),
      lookupA (l.filter (fun p => p.1 != k)) k' = lookupA l k' := by
  intro l
  induction l with
  | nil => rfl
  | cons a t ih =>
    rcases a with ⟨ka, va⟩
    by_cases hk : ka = k
    · subst hk
      simp [List.filter_cons, lookupA, h, ih]
    · by_cases hk' : k' = ka
      · subst hk'
        simp [List.filter_cons, lookupA, hk, bne_iff_ne]
      · simp [List.filter_cons, lookupA, hk, hk', ih, bne_iff_ne]

theorem lookupA_insertA_ne {α : Type} (l : List (String × α)) (k k' : String)
    (v : α) (h : k' ≠ k) : lookupA (insertA l k v) k' = lookupA l k' := by
  simp [insertA, lookupA, h, lookupA_filter_ne k k' h l]

theorem replOne_no_removed (c d : Char) (hd : d ∈ replOne c) :
    removedSlugChar d = false := by
  unfold replOne at hd
  split_ifs at hd with h1 h2 h3 h4 h5
  · simp at hd
  · simp at hd
    rcases hd with rfl | rfl | rfl <;> rfl
  · simp at hd
    rcases hd with rfl | rfl | rfl | rfl | rfl | rfl | rfl <;> rfl
  · simp at hd
    rcases hd with rfl | rfl | rfl <;> rfl
  · simp at hd
    rcases hd with rfl | rfl <;> rfl
  · simp at hd
    subst hd
    push_neg at h1
    obtain ⟨-, -, -, -, -, -, -, -, -, -, hb, hc⟩ := h1
    simp only [removedSlugChar, Bool.or_eq_false_iff, beq_eq_false_iff_ne]
    exact ⟨⟨⟨⟨h3, h4⟩, h5⟩, hb⟩, hc⟩

theorem replacer_no_removed (l : List Char) (d : Char)
    (hd : d ∈ replacerChars l) : removedSlugChar d = false := by
  induction l with
  | nil => simp [replacerChars] at hd
  | cons c t ih =>
    simp only [replacerChars, List.mem_append] at hd
    rcases hd with hd | hd
    · exact replOne_no_removed c d hd
    · exact ih hd

theorem mem_trimRightDash (c : Char) (l : List Char)
    (h : c ∈ trimRightDash l) : c ∈ l := by
  unfold trimRightDash at h
  rw [List.mem_reverse] at h
  have := (List.dropWhile_sublist (l := l.reverse) (p := fun c => c = '-')).subset h
  exact List.mem_reverse.mp this

/-- Claim C1 (amended): the slug produced by `Market.GenerateSlug` never
contains any of `% $ @ [ ]` — these are all removed or replaced by the
sanitizer.  (The spec's further claims that `#` and `+` are removed and
that consecutive dashes are collapsed do NOT hold; see the
counterexample.) -/
theorem generateSlug_no_removed_chars (q : String) :
    (generateSlug q).toList.all (fun c => !(removedSlugChar c)) = true := by
  rw [List.all_eq_true]
  intro c hc
  have h1 : c ∈ trimRightDash
      (let slug := (toLowerString q).toList
       let slug := slug.map (fun c => if c = ' ' then '-' else c)
       let slug := replacerChars slug
       if slug.length > 80 then slug.take 80 else slug) := hc
  have h2 := mem_trimRightDash c _ h1
  have h3 : c ∈ replacerChars
      ((toLowerString q).toList.map (fun c => if c = ' ' then '-' else c)) := by
    by_cases hl : (replacerChars ((toLowerString q).toList.map
        (fun c => if c = ' ' then '-' else c))).length > 80
    · simp only [hl, if_pos] at h2
      exact List.take_subset _ _ h2
    · simpa only [hl, if_neg] using h2
  have := replacer_no_removed _ c h3
  simp [this]

/-- Claim C1 counterexample: the question `C++ odds up  50%?` yields the
slug `c++-odds-up--50percent`, which contains `+` and consecutive dashes —
the sanitizer handles neither `#`/`+` nor dash collapsing. -/
theorem generateSlug_counterexample :
    ¬(((generateSlug "C++ odds up  50%?").toList.all
        (fun c => !(forbiddenSlugChar c))) = true ∧
      hasConsecutiveDashes (generateSlug "C++ odds up  50%?").toList = false) := by
  decide

/-- Claim C3 (amended): for ANY iteration order Go's map may use (any
permutation of the category names), `DetectCategory` returns "other"
exactly when no category's keyword list matches the lower-cased question,
and otherwise returns some category whose keywords do match.  Which
matching category is returned depends on the unspecified iteration order,
not on declaration order, so the result is not a function of the question
alone (see the counterexample). -/
theorem detectCategory_characterization (order : List String) (q : String)
    (h : order.Perm categoryNames) :
    (detectCategory order q = "other" ↔
      ∀ cat ∈ categoryNames, categoryMatches cat (toLowerString q) = false)
    ∧ (detectCategory order q ≠ "other" →
        detectCategory order q ∈ categoryNames ∧
        categoryMatches (detectCategory order q) (toLowerString q) = true) := by
  have hother : "other" ∉ categoryNames := by decide
  cases hf : order.find? (fun cat => categoryMatches cat (toLowerString q)) with
  | none =>
    have hd : detectCategory order q = "other" := by
      simp [detectCategory, hf]
    have hall : ∀ cat ∈ categoryNames, categoryMatches cat (toLowerString q) = false := by
      intro cat hcat
      have hmem : cat ∈ order := h.mem_iff.mpr hcat
      have := List.find?_eq_none.mp hf cat hmem
      simpa using this
    refine ⟨⟨fun _ => hall, fun _ => hd⟩, fun hne => absurd hd hne⟩
  | some c =>
    have hd : detectCategory order q = c := by
      simp [detectCategory, hf]
    have hc0 := List.find?_some hf
    have hc : categoryMatches c (toLowerString q) = true := by simpa using hc0
    have hmem : c ∈ categoryNames := h.mem_iff.mp (List.mem_of_find?_eq_some hf)
    have hcne : c ≠ "other" := fun hcon => hother (hcon ▸ hmem)
    constructor
    · constructor
      · intro habs
        exact absurd (hd.symm.trans habs) hcne
      · intro hnone
        have := hnone c hmem
        rw [hc] at this
        exact absurd this (by simp)
    · intro _
      rw [hd]
      exact ⟨hmem, hc⟩

/-- Claim C3 counterexample: the admissible iteration order that visits
`elections` before `politics` classifies the question
`Will Trump win the election?` as `elections`, while the
declaration-order result is `politics` — the assigned category is not the
first declaration-order match and is not a deterministic function of the
question. -/
theorem detectCategory_counterexample :
    orderSwapped.Perm categoryNames ∧
    detectCategory orderSwapped questionC3 = "elections" ∧
    detectCategory categoryNames questionC3 = "politics" := by
  refine ⟨by decide, by decide, by decide⟩

/-- Claim C3 witness: on a single-match question the characterization
yields a matching category. -/
theorem detectCategory_witness :
    detectCategory categoryNames "Will Bitcoin reach $100k?" ∈ categoryNames ∧
    categoryMatches (detectCategory categoryNames "Will Bitcoin reach $100k?")
      (toLowerString "Will Bitcoin reach $100k?") = true :=
  (detectCategory_characterization categoryNames "Will Bitcoin reach $100k?"
    (List.Perm.refl _)).2 (by decide)

theorem movementScoreOf_mono (c₁ c₂ : ℚ) (h : absF c₁ ≤ absF c₂) :
    movementScoreOf c₁ ≤ movementScoreOf c₂ := by
  simp only [movementScoreOf]
  split_ifs <;> norm_num <;> linarith

/-- Claim C9: `CalculateTrendingScore` is monotone non-decreasing in
`|change_24h|` with every other field fixed. -/
theorem calculateTrendingScore_mono (m : Market) (c₁ c₂ : ℚ)
    (h : absF c₁ ≤ absF c₂) :
    calculateTrendingScore { m with change24h := c₁ } ≤
      calculateTrendingScore { m with change24h := c₂ } := by
  have hmov := movementScoreOf_mono c₁ c₂ h
  show volumeScoreOf m.volume24h + movementScoreOf c₁ +
      velocityScoreOf m.volume1h m.volume24h + interestScoreOf m.probability ≤
    volumeScoreOf m.volume24h + movementScoreOf c₂ +
      velocityScoreOf m.volume1h m.volume24h + interestScoreOf m.probability
  linarith

/-- Claim C9 witness: a 0.01 move scores no higher than a 0.20 move on the
same market. -/
theorem calculateTrendingScore_mono_witness :
    calculateTrendingScore { marketC9 with change24h := 0.01 } ≤
      calculateTrendingScore { marketC9 with change24h := 0.2 } :=
  calculateTrendingScore_mono marketC9 0.01 0.2 (by norm_num [absF])

/-- Claim C7: when the LLM response is not parseable as JSON (the decode
fails), `GenerateBreaking` returns an error and the articles collection is
untouched — the failure propagates from `ChatJSON` before any
`SaveArticle` call. -/
theorem generateBreaking_parse_failure (llm : Bool) (event : SyncEvent)
    (enr : Option (Except Unit EnrichedContext)) (chat : Except String String)
    (decode : String → Option Narrative) (nowStr : String)
    (articles : List Article) (content : String)
    (hok : chat = .ok content) (hbad : decode content = none) :
    (generateBreaking llm event enr chat decode nowStr articles).1.isOk = false ∧
    (generateBreaking llm event enr chat decode nowStr articles).2 = articles := by
  subst hok
  cases llm with
  | false => exact ⟨rfl, rfl⟩
  | true =>
    simp [generateBreaking, chatJSON, hbad, Except.isOk, Except.toBool]

/-- Claim C7 witness: the LLM replying the bare string `oops` makes
`GenerateBreaking` fail and leaves the single stored article in place. -/
theorem generateBreaking_parse_failure_witness :
    (generateBreaking true eventC7 none (.ok "oops") decodeNone
        "20250101-0000" [articleBase]).1.isOk = false ∧
    (generateBreaking true eventC7 none (.ok "oops") decodeNone
        "20250101-0000" [articleBase]).2 = [articleBase] :=
  generateBreaking_parse_failure true eventC7 none (.ok "oops") decodeNone
    "20250101-0000" [articleBase] "oops" rfl rfl

/-- Claim C2 counterexample: with the cached market at probability 0.30 /
volume $20 000 and the update at 0.40 / $80 000 (a 0.10 breaking move AND
a 4.0x volume spike), the events are emitted in the order breaking_move,
volume_spike — not volume_spike first as the spec's scenario requires. -/
theorem thresholdCrossEvents_nil (now : ℕ) (ex m : Market)
    (h : ∀ t ∈ thresholds, crossedThreshold ex.probability m.probability t = false) :
    thresholdCrossEvents now ex m = [] := by
  simp only [thresholdCrossEvents]
  rw [List.filterMap_eq_nil_iff]
  intro t ht
  rw [h t ht]
  simp

theorem processMarket_order_counterexample :
    ((processMarketWithEvent categoryNames defaultSyncerConfig 7 pmC2 evBase
        stC2).1.map SyncEvent.type) = [.breakingMove, .volumeSpike] := by
  have hid : (convertMarketWithEvent categoryNames 7 pmC2 evBase).marketID = pmC2.id := rfl
  have hcache : lookupA stC2.marketCache pmC2.id = some existingC2 := rfl
  have hvol : ¬ pmC2.volume24hr < defaultSyncerConfig.minVolume24h := by
    norm_num [pmC2, pmBase, defaultSyncerConfig]
  have hch : (hitMarket existingC2 (convertMarketWithEvent categoryNames 7 pmC2 evBase)).change24h
      = pmC2.yesPrice - existingC2.probability := rfl
  have hv24 : (hitMarket existingC2 (convertMarketWithEvent categoryNames 7 pmC2 evBase)).volume24h
      = pmC2.volume24hr := rfl
  have hbreak : absF (pmC2.yesPrice - existingC2.probability) ≥
      defaultSyncerConfig.breakingThreshold := by
    norm_num [pmC2, pmBase, existingC2, marketBase, defaultSyncerConfig, absF]
  have hspike : existingC2.volume24h > 0 ∧
      pmC2.volume24hr / existingC2.volume24h ≥ defaultSyncerConfig.volumeMultiplier := by
    norm_num [pmC2, pmBase, existingC2, marketBase, defaultSyncerConfig]
  have hcross : thresholdCrossEvents 7 existingC2
      (hitMarket existingC2 (convertMarketWithEvent categoryNames 7 pmC2 evBase)) = [] := by
    apply thresholdCrossEvents_nil
    have hp : (hitMarket existingC2 (convertMarketWithEvent categoryNames 7 pmC2 evBase)).probability
        = (2/5 : ℚ) := rfl
    have hq : existingC2.probability = (3/10 : ℚ) := rfl
    intro t ht
    rw [hp, hq]
    simp only [thresholds, List.mem_cons, List.not_mem_nil, or_false] at ht
    rcases ht with rfl | rfl | rfl <;>
      · simp only [crossedThreshold, decide_eq_false_iff_not]
        norm_num
  simp only [processMarketWithEvent, if_neg hvol, hid, hcache]
  simp only [breakingEvents, volumeSpikeEvents, hch, hv24, if_pos hbreak,
    if_pos hspike, hcross]
  simp

/-- Claim C2 (amended): when a single sync-pass update satisfies both the
breaking condition and the volume-spike condition, `processMarketWithEvent`
emits both events for that market, with breaking_move emitted BEFORE
volume_spike (the code checks the breaking move first). -/
theorem processMarket_both_events (order : List String) (cfg : SyncerConfig)
    (now : ℕ) (pm : PMMarket) (event : PMEvent) (st : SyncState)
    (existing : Market)
    (hvol : ¬ pm.volume24hr < cfg.minVolume24h)
    (hcache : lookupA st.marketCache pm.id = some existing)
    (hbreak : absF (pm.yesPrice - existing.probability) ≥ cfg.breakingThreshold)
    (hspike : existing.volume24h > 0 ∧
      pm.volume24hr / existing.volume24h ≥ cfg.volumeMultiplier) :
    ((processMarketWithEvent order cfg now pm event st).1.map
        SyncEvent.type).take 2 = [.breakingMove, .volumeSpike] := by
  have hid : (convertMarketWithEvent order now pm event).marketID = pm.id := rfl
  have hch : (hitMarket existing (convertMarketWithEvent order now pm event)).change24h
      = pm.yesPrice - existing.probability := rfl
  have hv24 : (hitMarket existing (convertMarketWithEvent order now pm event)).volume24h
      = pm.volume24hr := rfl
  simp only [processMarketWithEvent, if_neg hvol, hid, hcache]
  simp only [breakingEvents, volumeSpikeEvents, hch, hv24, if_pos hbreak,
    if_pos hspike]
  simp [List.map_append]

/-- Claim C2 witness: the concrete both-conditions scenario, through the
amended theorem. -/
theorem processMarket_both_events_witness :
    ((processMarketWithEvent categoryNames defaultSyncerConfig 7 pmC2 evBase
        stC2).1.map SyncEvent.type).take 2 = [.breakingMove, .volumeSpike] :=
  processMarket_both_events categoryNames defaultSyncerConfig 7 pmC2 evBase
    stC2 existingC2 (by norm_num [pmC2, pmBase, defaultSyncerConfig]) rfl
    (by norm_num [pmC2, pmBase, existingC2, marketBase, defaultSyncerConfig, absF])
    (by norm_num [pmC2, pmBase, existingC2, marketBase, defaultSyncerConfig])

theorem lookupA_upsert_map {α : Type} (f : Market → α) (now : ℕ)
    (store : List (String × Market)) (m : Market) (k : String)
    (hk : m.marketID = k) :
    (lookupA (upsertMarket now store m).2 k).map f
      = some (f (upsertMarket now store m).1) := by
  subst hk
  simp only [upsertMarket]
  rw [lookupA_insertA_self]
  rfl

/-- Claim C6 (amended): only for a first-seen market does the recorded
`change_24h` equal the upstream-reported value; for every already-cached
market `processMarketWithEvent` unconditionally overwrites it with
`probability − previous cached probability`, regardless of the upstream
value. -/
theorem change24h_recorded (order : List String) (cfg : SyncerConfig)
    (now : ℕ) (pm : PMMarket) (event : PMEvent) (st : SyncState)
    (hvol : ¬ pm.volume24hr < cfg.minVolume24h) :
    (lookupA st.marketCache pm.id = none →
      (lookupA (processMarketWithEvent order cfg now pm event st).2.store
          pm.id).map Market.change24h = some pm.oneDayPriceChange)
    ∧ (∀ existing, lookupA st.marketCache pm.id = some existing →
      (lookupA (processMarketWithEvent order cfg now pm event st).2.store
          pm.id).map Market.change24h = some (pm.yesPrice - existing.probability)) := by
  have hid : (convertMarketWithEvent order now pm event).marketID = pm.id := rfl
  constructor
  · intro hmiss
    simp only [processMarketWithEvent, if_neg hvol, hid, hmiss]
    exact lookupA_upsert_map Market.change24h now st.store _ _ rfl
  · intro existing hhit
    simp only [processMarketWithEvent, if_neg hvol, hid, hhit]
    exact lookupA_upsert_map Market.change24h now st.store _ _ rfl

/-- Claim C6 counterexample: a cached market at probability 0.50 updated
to 0.55 with the upstream reporting `oneDayPriceChange = 0.2` is stored
with `change_24h = 0.05` — the upstream value is present but ignored. -/
theorem change24h_counterexample :
    pmC6.oneDayPriceChange = 1/5 ∧
    (lookupA (processMarketWithEvent categoryNames defaultSyncerConfig 7 pmC6
        evBase stC6).2.store "m3").map Market.change24h = some (1/20) ∧
    (1/20 : ℚ) ≠ 1/5 := by
  refine ⟨rfl, ?_, by norm_num⟩
  have h := (change24h_recorded categoryNames defaultSyncerConfig 7 pmC6 evBase
    stC6 (by norm_num [pmC6, pmBase, defaultSyncerConfig])).2 existingC6 rfl
  rw [show pmC6.id = "m3" from rfl] at h
  rw [h]
  norm_num [pmC6, pmBase, existingC6, marketBase]

/-- Claim C6 witness: a first-seen market records the upstream value. -/
theorem change24h_witness :
    (lookupA (processMarketWithEvent categoryNames defaultSyncerConfig 3 pmC6w
        evBase initState).2.store pmC6w.id).map Market.change24h
      = some pmC6w.oneDayPriceChange :=
  (change24h_recorded categoryNames defaultSyncerConfig 3 pmC6w evBase
    initState (by norm_num [pmC6w, pmBase, defaultSyncerConfig])).1 rfl

theorem clientParsePrices_id (pm : PMMarket) : (clientParsePrices pm).id = pm.id := by
  unfold clientParsePrices
  split <;> rfl

theorem clientParsePrices_outcomePrices (pm : PMMarket) :
    (clientParsePrices pm).outcomePrices = pm.outcomePrices := by
  unfold clientParsePrices
  split <;> rfl

theorem clientParsePrices_yesPrice (pm : PMMarket)
    (hlen : pm.outcomePrices.length ≥ 2) :
    (clientParsePrices pm).yesPrice = (parseFloat pm.outcomePrices.headI).getD 0 := by
  rw [clientParsePrices, if_pos hlen]

theorem parseFloat_decimal_07 : parseFloat "0.7" = some (7/10) := by
  have h : parseFloat "0.7"
      = some (1 * (((0 : ℕ) : ℚ) + ((7 : ℕ) : ℚ) / (10 : ℚ) ^ (1 : ℕ))) := rfl
  rw [h]
  norm_num

/-- Claim C4 (amended): `outcome_prices[0] = probability` holds for a
market written by the Syncer exactly when the upstream outcome-price list
has at least two entries and its first entry parses — the only case in
which `GetMarkets` computes `YesPrice` from `OutcomePrices[0]`.  With
fewer than two entries, or a first entry that fails parsing, `YesPrice`
stays 0 while the converter still keeps the parseable entries, and the
equality fails (see the counterexample). -/
theorem outcomePrices_head_eq_probability (order : List String)
    (cfg : SyncerConfig) (now : ℕ) (pm : PMMarket) (event : PMEvent)
    (st : SyncState) (x : ℚ)
    (hvol : ¬ (clientParsePrices pm).volume24hr < cfg.minVolume24h)
    (hlen : pm.outcomePrices.length ≥ 2)
    (hparse : parseFloat pm.outcomePrices.headI = some x) :
    (lookupA (processMarketWithEvent order cfg now (clientParsePrices pm)
        event st).2.store pm.id).map (fun m => m.outcomePrices.head?)
      = (lookupA (processMarketWithEvent order cfg now (clientParsePrices pm)
        event st).2.store pm.id).map (fun m => some m.probability) := by
  have hid : (convertMarketWithEvent order now (clientParsePrices pm)
      event).marketID = pm.id := clientParsePrices_id pm
  have hval : ((clientParsePrices pm).outcomePrices.filterMap parseFloat).head?
      = some (clientParsePrices pm).yesPrice := by
    rw [clientParsePrices_outcomePrices, clientParsePrices_yesPrice pm hlen, hparse]
    cases hop : pm.outcomePrices with
    | nil => rw [hop] at hlen; simp at hlen
    | cons a t =>
      have ha : parseFloat a = some x := by
        rw [hop] at hparse
        simpa using hparse
      simp [List.filterMap_cons, ha]
  cases hc : lookupA st.marketCache pm.id with
  | none =>
    simp only [processMarketWithEvent, if_neg hvol, hid, hc]
    rw [lookupA_upsert_map (fun m => m.outcomePrices.head?) now st.store _ _ rfl,
        lookupA_upsert_map (fun m => some m.probability) now st.store _ _ rfl]
    exact congrArg some hval
  | some existing =>
    simp only [processMarketWithEvent, if_neg hvol, hid, hc]
    rw [lookupA_upsert_map (fun m => m.outcomePrices.head?) now st.store _ _ ?_,
        lookupA_upsert_map (fun m => some m.probability) now st.store _ _ ?_]
    · exact congrArg some hval
    · exact hid
    · exact hid

/-- Claim C4 counterexample: a single-entry outcome-price list `["0.7"]`
(the claim explicitly covers lists with fewer than two entries) is stored
with `outcome_prices[0] = 0.7` but `probability = 0`, because the client
only computes `YesPrice` for lists of length ≥ 2. -/
theorem outcomePrices_probability_counterexample :
    (lookupA (processMarketWithEvent categoryNames defaultSyncerConfig 3
        (clientParsePrices pmC4) evBase initState).2.store "m4").map
      (fun m => (m.outcomePrices.head?, m.probability))
      = some (some (7/10), 0) := by
  have hcp : clientParsePrices pmC4 = pmC4 := by
    rw [clientParsePrices, if_neg]
    decide
  rw [hcp]
  have hid : (convertMarketWithEvent categoryNames 3 pmC4 evBase).marketID
      = "m4" := rfl
  have hvol : ¬ pmC4.volume24hr < defaultSyncerConfig.minVolume24h := by
    norm_num [pmC4, pmBase, defaultSyncerConfig]
  have hc : lookupA initState.marketCache "m4" = none := rfl
  simp only [processMarketWithEvent, if_neg hvol, hid, hc]
  rw [lookupA_upsert_map (fun m => (m.outcomePrices.head?, m.probability)) 3
        initState.store _ _ rfl]
  show some (((pmC4.outcomePrices.filterMap parseFloat).head?), pmC4.yesPrice)
      = some (some (7/10), 0)
  rw [show pmC4.outcomePrices = ["0.7"] from rfl,
      show pmC4.yesPrice = (0 : ℚ) from rfl]
  simp [List.filterMap_cons, parseFloat_decimal_07]

/-- Claim C4 witness: a two-entry list whose first entry parses does give
`outcome_prices[0] = probability`. -/
theorem outcomePrices_head_witness :
    (lookupA (processMarketWithEvent categoryNames defaultSyncerConfig 3
        (clientParsePrices pmC4w) evBase initState).2.store pmC4w.id).map
      (fun m => m.outcomePrices.head?)
      = (lookupA (processMarketWithEvent categoryNames defaultSyncerConfig 3
        (clientParsePrices pmC4w) evBase initState).2.store pmC4w.id).map
      (fun m => some m.probability) :=
  outcomePrices_head_eq_probability categoryNames defaultSyncerConfig 3 pmC4w
    evBase initState (7/10)
    (by norm_num [clientParsePrices, pmC4w, pmBase, defaultSyncerConfig])
    (by decide) parseFloat_decimal_07

/-- Claim C10: every event emitted by `processMarketWithEvent` satisfies
the Scheduler's unchecked type assertions — a threshold_cross event always
carries `Metadata["threshold"]` as a float equal to 0.50, 0.75 or 0.90 and
`Metadata["direction"]` as a string, and a volume_spike event always
carries `Metadata["multiplier"]` as a float — so `processEvent` never
panics on Syncer-emitted events. -/
theorem processEvent_asserts_hold (order : List String) (cfg : SyncerConfig)
    (now : ℕ) (pm : PMMarket) (event : PMEvent) (st : SyncState) :
    ∀ e ∈ (processMarketWithEvent order cfg now pm event st).1,
      processEventAsserts e = true ∧
      (e.type = .thresholdCross →
        (∃ t, lookupA e.metadata "threshold" = some (.f t) ∧
          (t = 0.50 ∨ t = 0.75 ∨ t = 0.90)) ∧
        ∃ d, lookupA e.metadata "direction" = some (.s d)) ∧
      (e.type = .volumeSpike →
        ∃ x, lookupA e.metadata "multiplier" = some (.f x)) := by
  intro e he
  by_cases hvol : pm.volume24hr < cfg.minVolume24h
  · simp [processMarketWithEvent, hvol] at he
  · simp only [processMarketWithEvent, if_neg hvol] at he
    cases hc : lookupA st.marketCache
        (convertMarketWithEvent order now pm event).marketID with
    | none =>
      rw [hc] at he
      simp only [List.mem_singleton] at he
      subst he
      refine ⟨rfl, ?_, ?_⟩ <;> intro h <;> simp at h
    | some existing =>
      rw [hc] at he
      simp only [List.mem_append] at he
      rcases he with (he | he) | he
      · unfold breakingEvents at he
        split_ifs at he with hcond
        · simp only [List.mem_singleton] at he
          subst he
          refine ⟨rfl, ?_, ?_⟩ <;> intro h <;> simp at h
        · simp at he
      · unfold volumeSpikeEvents at he
        split_ifs at he with hcond
        · simp only [List.mem_singleton] at he
          subst he
          refine ⟨by simp [processEventAsserts, lookupA], ?_, ?_⟩
          · intro h
            simp at h
          · intro _
            exact ⟨(hitMarket existing (convertMarketWithEvent order now pm
                event)).volume24h / existing.volume24h, by simp [lookupA]⟩
        · simp at he
      · unfold thresholdCrossEvents at he
        rw [List.mem_filterMap] at he
        obtain ⟨t, ht, hmk⟩ := he
        split_ifs at hmk with hcond
        · rw [Option.some_inj] at hmk
          subst hmk
          have ht' : t = 0.50 ∨ t = 0.75 ∨ t = 0.90 := by
            simpa [thresholds] using ht
          refine ⟨by simp [processEventAsserts, lookupA], ?_, ?_⟩
          · intro _
            exact ⟨⟨t, by simp [lookupA], ht'⟩,
              ⟨directionString existing.probability (hitMarket existing
                (convertMarketWithEvent order now pm event)).probability,
               by simp [lookupA]⟩⟩
          · intro h
            simp at h

/-- Claim C10 witness: the 0.48 → 0.52 update emits exactly one
threshold_cross event and the Scheduler's assertion on it succeeds. -/
theorem processEvent_asserts_witness :
    processEventAsserts ((processMarketWithEvent categoryNames
        defaultSyncerConfig 7 pmC10 evBase stC10).1.headI) = true := by
  have hid : (convertMarketWithEvent categoryNames 7 pmC10 evBase).marketID
      = pmC10.id := rfl
  have hcache : lookupA stC10.marketCache pmC10.id = some existingC10 := rfl
  have hvol : ¬ pmC10.volume24hr < defaultSyncerConfig.minVolume24h := by
    norm_num [pmC10, pmBase, defaultSyncerConfig]
  have hnobreak : ¬ absF ((hitMarket existingC10 (convertMarketWithEvent
      categoryNames 7 pmC10 evBase)).change24h)
      ≥ defaultSyncerConfig.breakingThreshold := by
    rw [show (hitMarket existingC10 (convertMarketWithEvent categoryNames 7
      pmC10 evBase)).change24h = pmC10.yesPrice - existingC10.probability
      from rfl]
    norm_num [pmC10, pmBase, existingC10, marketBase, defaultSyncerConfig, absF]
  have hnospike : ¬ (existingC10.volume24h > 0 ∧
      (hitMarket existingC10 (convertMarketWithEvent categoryNames 7 pmC10
        evBase)).volume24h / existingC10.volume24h
        ≥ defaultSyncerConfig.volumeMultiplier) := by
    rw [show (hitMarket existingC10 (convertMarketWithEvent categoryNames 7
      pmC10 evBase)).volume24h = pmC10.volume24hr from rfl]
    norm_num [pmC10, pmBase, existingC10, marketBase, defaultSyncerConfig]
  have hp : (hitMarket existingC10 (convertMarketWithEvent categoryNames 7
      pmC10 evBase)).probability = pmC10.yesPrice := rfl
  have hcross1 : crossedThreshold existingC10.probability
      (hitMarket existingC10 (convertMarketWithEvent categoryNames 7 pmC10
        evBase)).probability 0.50 = true := by
    rw [hp]
    simp only [crossedThreshold, decide_eq_true_eq]
    norm_num [pmC10, pmBase, existingC10, marketBase]
  have hcross2 : crossedThreshold existingC10.probability
      (hitMarket existingC10 (convertMarketWithEvent categoryNames 7 pmC10
        evBase)).probability 0.75 = false := by
    rw [hp]
    simp only [crossedThreshold, decide_eq_false_iff_not]
    norm_num [pmC10, pmBase, existingC10, marketBase]
  have hcross3 : crossedThreshold existingC10.probability
      (hitMarket existingC10 (convertMarketWithEvent categoryNames 7 pmC10
        evBase)).probability 0.90 = false := by
    rw [hp]
    simp only [crossedThreshold, decide_eq_false_iff_not]
    norm_num [pmC10, pmBase, existingC10, marketBase]
  have hmem : ((processMarketWithEvent categoryNames defaultSyncerConfig 7
        pmC10 evBase stC10).1.headI)
      ∈ (processMarketWithEvent categoryNames defaultSyncerConfig 7 pmC10
        evBase stC10).1 := by
    simp only [processMarketWithEvent, if_neg hvol, hid, hcache]
    simp only [breakingEvents, volumeSpikeEvents, if_neg hnobreak,
      if_neg hnospike, List.nil_append]
    simp only [thresholdCrossEvents, thresholds, List.filterMap_cons,
      List.filterMap_nil, hcross1, hcross2, hcross3]
    simp
  exact (processEvent_asserts_hold categoryNames defaultSyncerConfig 7 pmC10
    evBase stC10 _ hmem).1

/-- Claim C8: `Enricher.Enrich` returns a non-nil context with a nil error
on every input (in particular whenever at least one enabled provider
succeeds, and when all are disabled); a failing provider is omitted from
`Sources`, which names exactly the providers whose calls were made and
succeeded — with only news search enabled and succeeding,
`Sources = ["tavily"]` for either goroutine completion order. -/
theorem enrich_sources (e : Enricher) (now : ℕ) (q : String)
    (tOut : Except Unit (List NewsArticle))
    (eOut : Except Unit (List SemanticResult))
    (fOut : Except Unit (List DeepContent)) (ord : Bool) :
    (enrich e now q tOut eOut fOut ord).isOk = true ∧
    ∀ ctx, enrich e now q tOut eOut fOut ord = .ok ctx →
      (("tavily" ∈ ctx.sources) ↔ (e.tavily = true ∧ tOut.isOk = true)) ∧
      (("exa" ∈ ctx.sources) ↔ (e.exa = true ∧ eOut.isOk = true)) ∧
      (("firecrawl" ∈ ctx.sources) ↔
        (e.firecrawl = true ∧ ctx.newsArticles ≠ [] ∧ fOut.isOk = true)) ∧
      (e.tavily = true → e.exa = false → e.firecrawl = false →
        tOut.isOk = true → ctx.sources = ["tavily"]) := by
  obtain ⟨tav, exa, fc, mn, md⟩ := e
  constructor
  · rfl
  · intro ctx hctx
    rcases tOut with u | (_ | ⟨a, tl⟩) <;> rcases eOut with v | el <;>
      rcases fOut with w | fl <;> cases ord <;> cases tav <;> cases exa <;>
      cases fc <;>
      (simp [enrich] at hctx; subst hctx; simp [Except.isOk, Except.toBool])

/-- Claim C8 witness: only Tavily enabled and succeeding gives
`Sources = ["tavily"]` and no error. -/
theorem enrich_sources_witness :
    (enrich enricherC8 5 "q" (.ok [newsC8]) (.error ()) (.error ()) true).map
      EnrichedContext.sources = .ok ["tavily"] := by
  have h := enrich_sources enricherC8 5 "q" (.ok [newsC8]) (.error ())
    (.error ()) true
  cases henr : enrich enricherC8 5 "q" (.ok [newsC8]) (.error ()) (.error ())
      true with
  | error u =>
    rw [henr] at h
    simp [Except.isOk, Except.toBool] at h
  | ok ctx =>
    have hs := (h.2 ctx henr).2.2.2 rfl rfl rfl rfl
    simp [Except.map, hs]

theorem syncInv_init : syncInv initState := by
  constructor
  · intro id m hm
    simp [initState, lookupA] at hm
  · intro id m hm
    simp [initState, lookupA] at hm

theorem process_state_char (order : List String) (cfg : SyncerConfig)
    (now : ℕ) (pm : PMMarket) (event : PMEvent) (st : SyncState)
    (hvol : ¬ pm.volume24hr < cfg.minVolume24h) :
    ∃ market : Market,
      market.marketID = pm.id ∧
      (lookupA st.marketCache pm.id = none → market.firstSeenAt = now) ∧
      (∀ ex, lookupA st.marketCache pm.id = some ex →
        market.firstSeenAt = ex.firstSeenAt) ∧
      (processMarketWithEvent order cfg now pm event st).2 =
        { marketCache := insertA st.marketCache pm.id
            (upsertMarket now st.store market).1,
          store := insertA st.store pm.id (upsertMarket now st.store market).1 } := by
  have hid : (convertMarketWithEvent order now pm event).marketID = pm.id := rfl
  cases hc : lookupA st.marketCache pm.id with
  | none =>
    refine ⟨{ convertMarketWithEvent order now pm event with firstSeenAt := now },
      rfl, fun _ => rfl, ?_, ?_⟩
    · intro ex hex
      exact absurd hex (by simp)
    · simp only [processMarketWithEvent, if_neg hvol, hid, hc]
      rfl
  | some existing =>
    refine ⟨hitMarket existing (convertMarketWithEvent order now pm event),
      rfl, ?_, ?_, ?_⟩
    · intro hex
      exact absurd hex (by simp)
    · intro ex hex
      rw [Option.some_inj] at hex
      subst hex
      rfl
    · simp only [processMarketWithEvent, if_neg hvol, hid, hc]
      rfl

theorem upsert_firstSeenAt (now : ℕ) (store : List (String × Market))
    (m : Market) :
    (upsertMarket now store m).1.firstSeenAt
      = if m.firstSeenAt = 0 then now else m.firstSeenAt := rfl

theorem processMarket_preserves (order : List String) (cfg : SyncerConfig)
    (now : ℕ) (pm : PMMarket) (event : PMEvent) (st : SyncState)
    (hnow : now ≠ 0) (hinv : syncInv st) :
    syncInv (processMarketWithEvent order cfg now pm event st).2 ∧
    ∀ id m, lookupA st.store id = some m →
      (lookupA (processMarketWithEvent order cfg now pm event st).2.store
        id).map Market.firstSeenAt = some m.firstSeenAt := by
  by_cases hvol : pm.volume24hr < cfg.minVolume24h
  · constructor
    · simpa only [processMarketWithEvent, if_pos hvol] using hinv
    · intro id m hm
      simp only [processMarketWithEvent, if_pos hvol]
      rw [hm]
      rfl
  · obtain ⟨mkt, hmid, hmiss, hhit, hstate⟩ :=
      process_state_char order cfg now pm event st hvol
    have hfsne : (upsertMarket now st.store mkt).1.firstSeenAt ≠ 0 := by
      rw [upsert_firstSeenAt]
      cases hc : lookupA st.marketCache pm.id with
      | none =>
        rw [hmiss hc]
        simp [hnow]
      | some ex =>
        have hex := hinv.1 pm.id ex hc
        rw [hhit ex hc]
        simp [hex]
    rw [hstate]
    constructor
    · constructor
      · intro id m hm
        by_cases hidk : id = pm.id
        · subst hidk
          rw [lookupA_insertA_self, Option.some_inj] at hm
          exact hm ▸ hfsne
        · rw [lookupA_insertA_ne _ _ _ _ hidk] at hm
          exact hinv.1 id m hm
      · intro id m hm
        by_cases hidk : id = pm.id
        · subst hidk
          rw [lookupA_insertA_self, Option.some_inj] at hm
          exact ⟨(upsertMarket now st.store mkt).1, lookupA_insertA_self _ _ _,
            by rw [hm]⟩
        · rw [lookupA_insertA_ne _ _ _ _ hidk] at hm
          obtain ⟨mc, hmc, heq⟩ := hinv.2 id m hm
          exact ⟨mc, by rw [lookupA_insertA_ne _ _ _ _ hidk]; exact hmc, heq⟩
    · intro id m hm
      by_cases hidk : id = pm.id
      · subst hidk
        obtain ⟨mc, hmc, heq⟩ := hinv.2 pm.id m hm
        rw [lookupA_insertA_self]
        simp only [Option.map_some']
        rw [upsert_firstSeenAt, hhit mc hmc]
        have hmcne := hinv.1 pm.id mc hmc
        have hmne : m.firstSeenAt ≠ 0 := heq ▸ hmcne
        simp [heq, hmne]
      · rw [lookupA_insertA_ne _ _ _ _ hidk, hm]
        rfl

theorem runSteps_preserves (cfg : SyncerConfig) (steps : List SyncStep) :
    ∀ st : SyncState, (∀ s ∈ steps, s.now ≠ 0) → syncInv st →
      syncInv (runSteps cfg steps st) ∧
      ∀ id m, lookupA st.store id = some m →
        (lookupA (runSteps cfg steps st).store id).map Market.firstSeenAt
          = some m.firstSeenAt := by
  induction steps with
  | nil =>
    intro st _ hinv
    exact ⟨hinv, fun id m hm => by rw [runSteps, List.foldl_nil, hm]; rfl⟩
  | cons s rest ih =>
    intro st hnow hinv
    have hs : s.now ≠ 0 := hnow s (List.mem_cons_self s rest)
    have hrest : ∀ x ∈ rest, x.now ≠ 0 :=
      fun x hx => hnow x (List.mem_cons_of_mem s hx)
    have hstep := processMarket_preserves s.order cfg s.now s.pm s.event st
      hs hinv
    have hrun : runSteps cfg (s :: rest) st
        = runSteps cfg rest
            (processMarketWithEvent s.order cfg s.now s.pm s.event st).2 := rfl
    rw [hrun]
    obtain ⟨hinv', hkeep'⟩ :=
      ih (processMarketWithEvent s.order cfg s.now s.pm s.event st).2 hrest
        hstep.1
    refine ⟨hinv', ?_⟩
    intro id m hm
    have h1 := hstep.2 id m hm
    cases h2 : lookupA (processMarketWithEvent s.order cfg s.now s.pm s.event
        st).2.store id with
    | none => rw [h2] at h1; simp at h1
    | some m1 =>
      rw [h2] at h1
      have h3 := hkeep' id m1 h2
      rw [h3]
      simpa using h1

theorem runSteps_append (cfg : SyncerConfig) (steps extra : List SyncStep)
    (st : SyncState) :
    runSteps cfg (steps ++ extra) st = runSteps cfg extra (runSteps cfg steps st) := by
  simp [runSteps, List.foldl_append]

theorem eq_some_iget {α : Type} [Inhabited α] (o : Option α)
    (h : o.isSome = true) : o = some o.iget := by
  cases o with
  | none => simp at h
  | some a => rfl

/-- Claim C5 (amended): across any sequence of sync passes (runs of
`processMarketWithEvent` from the empty start state, with nonzero clock
reads), the stored `first_seen_at` of a market_id changes at most once: it
is nonzero as soon as the record exists, and every later pass leaves it
unchanged.  This relies on the Syncer's cache carrying `first_seen_at`
forward — `UpsertMarket` itself only checks zero-ness of the INCOMING
record, so a bare upsert with a zero `first_seen_at` resets the stored
value (see the counterexample). -/
theorem firstSeenAt_changes_at_most_once (cfg : SyncerConfig)
    (steps extra : List SyncStep)
    (h : ∀ s ∈ steps ++ extra, s.now ≠ 0) (id : String) (m : Market)
    (hm : lookupA (runSteps cfg steps initState).store id = some m) :
    m.firstSeenAt ≠ 0 ∧
    (lookupA (runSteps cfg (steps ++ extra) initState).store id).map
      Market.firstSeenAt = some m.firstSeenAt := by
  have h1 : ∀ s ∈ steps, s.now ≠ 0 :=
    fun s hs => h s (List.mem_append_left _ hs)
  have h2 : ∀ s ∈ extra, s.now ≠ 0 :=
    fun s hs => h s (List.mem_append_right _ hs)
  obtain ⟨hinv1, -⟩ := runSteps_preserves cfg steps initState h1 syncInv_init
  obtain ⟨mc, hmc, heq⟩ := hinv1.2 id m hm
  have hne := hinv1.1 id mc hmc
  refine ⟨heq ▸ hne, ?_⟩
  rw [runSteps_append]
  exact (runSteps_preserves cfg extra (runSteps cfg steps initState) h2
    hinv1).2 id m hm

/-- Claim C5 counterexample: `UpsertMarket` checks `first_seen_at` on the
incoming record, not on the stored one — two bare upserts of a record with
a zero `first_seen_at`, at ticks 1 and then 2, leave the stored
`first_seen_at` first at 1 and then at 2: it changes twice. -/
theorem upsertMarket_firstSeenAt_counterexample :
    (lookupA (upsertMarket 1 [] mC5).2 "m7").map Market.firstSeenAt
      = some 1 ∧
    (lookupA (upsertMarket 2 (upsertMarket 1 [] mC5).2 mC5).2 "m7").map
      Market.firstSeenAt = some 2 := by
  decide

/-- Claim C5 witness: market `m8` first seen at tick 1 keeps its
`first_seen_at` across the tick-2 pass. -/
theorem firstSeenAt_once_witness :
    ((lookupA (runSteps defaultSyncerConfig [stepC5a] initState).store
        "m8").iget).firstSeenAt ≠ 0 ∧
    (lookupA (runSteps defaultSyncerConfig ([stepC5a] ++ [stepC5b])
        initState).store "m8").map Market.firstSeenAt
      = some ((lookupA (runSteps defaultSyncerConfig [stepC5a]
        initState).store "m8").iget).firstSeenAt := by
  have hsome : (lookupA (runSteps defaultSyncerConfig [stepC5a]
      initState).store "m8").isSome = true := by
    have hvol1 : ¬ stepC5a.pm.volume24hr < defaultSyncerConfig.minVolume24h := by
      norm_num [stepC5a, pmBase, defaultSyncerConfig]
    have hid1 : (convertMarketWithEvent stepC5a.order stepC5a.now stepC5a.pm
        stepC5a.event).marketID = "m8" := rfl
    have hc1 : lookupA initState.marketCache "m8" = none := rfl
    show (lookupA ((processMarketWithEvent stepC5a.order defaultSyncerConfig
        stepC5a.now stepC5a.pm stepC5a.event initState).2).store "m8").isSome
      = true
    simp only [processMarketWithEvent, if_neg hvol1, hid1, hc1]
    rw [show ∀ m : Market, (upsertMarket stepC5a.now initState.store m).2
        = insertA initState.store m.marketID
            (upsertMarket stepC5a.now initState.store m).1 from fun _ => rfl]
    dsimp only
    rw [lookupA_insertA_self]
    rfl
  exact firstSeenAt_changes_at_most_once defaultSyncerConfig [stepC5a]
    [stepC5b] (by decide) "m8" _ (eq_some_iget _ hsome)
